import Mathlib

/-!
Verification development for the MCP booking server's availability-resolution
and conflict-detection core.  The Python source is shallowly embedded:

* database tables (`resources`, `resourcelist`, `tasks`, `calendar`) become
  lists of records inside a `DB` value;
* SQL queries become list filters / sorts / folds;
* timestamps are proleptic-Gregorian epoch seconds (`Int`), matching the
  semantics of Python `datetime` subtraction and SQL `EXTRACT(EPOCH ...)`;
* `datetime.strptime(s, "%Y-%m-%d %H:%M")` is modelled by `parseDT`,
  reproducing the 1-to-2 digit leniency of Python's strptime regexes and its
  whitespace handling;
* every tool returns `Except ToolError report` instead of a JSON string; the
  blanket `except Exception` handlers of the source correspond to the
  `.error` constructors.
-/

namespace Booking

/-- ASCII case-lowering of a character list; models SQL `LOWER` / the fact
that both sides of the `LIKE` comparison in the source are lowered with the
same function. -/
def lowerChars (l : List Char) : List Char := l.map Char.toLower

/-- ASCII case-raising of a character list; models SQL `UPPER`. -/
def upperChars (l : List Char) : List Char := l.map Char.toUpper

/-- PostgreSQL `LIKE` semantics over character lists, split into structural
recursions: `%` matches any run of characters, `_` any single character, and
a backslash escapes the following pattern character.  (A pattern ending in a
lone backslash is an error in PostgreSQL; the query would fail and the tool
would return its catch-all error report.  No theorem below exercises that
input, so the model simply does not match there.)  `likeEmpty` decides
whether a pattern matches the empty text. -/
def likeEmpty : List Char → Bool
  | [] => true
  | p :: ps => if p = '%' then likeEmpty ps else false

/-- One step of `LIKE` matching against a text starting with `c`; `onRest`
matches an arbitrary pattern against the rest of the text. -/
def likeCons (c : Char) (onRest : List Char → Bool) : List Char → Bool
  | [] => false
  | p :: ps =>
    if p = '%' then likeCons c onRest ps || onRest (p :: ps)
    else if p = '\\' then
      match ps with
      | [] => false
      | x :: ps' => (x == c) && onRest ps'
    else ((p = '_') || (p == c)) && onRest ps

/-- `LIKE` matching, recursing structurally on the text. -/
def likeText : List Char → List Char → Bool
  | [], ps => likeEmpty ps
  | c :: cs, ps => likeCons c (fun qs => likeText cs qs) ps

/-- PostgreSQL `LIKE` pattern matching: `likeMatch pattern text`. -/
def likeMatch (ps cs : List Char) : Bool := likeText cs ps

/-- Greedily read up to `maxLen` further digit characters, accumulating the
value read so far. -/
def takeDigitsAux : Nat → List Char → Nat → Nat × List Char
  | 0, cs, acc => (acc, cs)
  | _ + 1, [], acc => (acc, [])
  | k + 1, c :: cs, acc =>
    if c.isDigit then takeDigitsAux k cs (acc * 10 + (c.toNat - 48)) else (acc, c :: cs)

/-- Read between 1 and `maxLen` digits greedily, as the strptime regex
fragments for month/day/hour/minute (1-2 digits plus a value check) do. -/
def takeDigits (maxLen : Nat) (cs : List Char) : Option (Nat × List Char) :=
  match cs with
  | [] => none
  | c :: _ => if c.isDigit then some (takeDigitsAux maxLen cs 0) else none

/-- Read exactly four digits: CPython's `%Y` regex is `\d\d\d\d`, so a year
written with fewer than four digits is a `ValueError`. -/
def takeYear : List Char → Option (Nat × List Char)
  | a :: b :: c :: d :: rest =>
    if a.isDigit && b.isDigit && c.isDigit && d.isDigit then
      some ((((a.toNat - 48) * 10 + (b.toNat - 48)) * 10 + (c.toNat - 48)) * 10 +
        (d.toNat - 48), rest)
    else none
  | _ => none

/-- Expect one literal character. -/
def expectChar (c : Char) : List Char → Option (List Char)
  | [] => none
  | x :: xs => if x == c then some xs else none

/-- Drop any further whitespace characters. -/
def dropWS : List Char → List Char
  | [] => []
  | c :: cs => if c.isWhitespace then dropWS cs else c :: cs

/-- Expect at least one whitespace character; Python's strptime replaces a
literal space in the format by a one-or-more whitespace match. -/
def expectWS : List Char → Option (List Char)
  | [] => none
  | c :: cs => if c.isWhitespace then some (dropWS cs) else none

/-- Gregorian leap-year rule, as in Python's `calendar.isleap`. -/
def isLeap (y : Nat) : Bool := y % 4 == 0 && (y % 100 != 0 || y % 400 == 0)

/-- Days in a month of the proleptic Gregorian calendar. -/
def daysInMonth (y m : Nat) : Nat :=
  if m = 2 then (if isLeap y then 29 else 28)
  else if m = 4 || m = 6 || m = 9 || m = 11 then 30
  else 31

/-- A parsed `YYYY-MM-DD HH:MM` value (no seconds, no timezone). -/
structure DateTimeVal where
  year : Nat
  month : Nat
  day : Nat
  hour : Nat
  minute : Nat
deriving DecidableEq, Repr

/-- Model of `datetime.strptime(s, "%Y-%m-%d %H:%M")`:
the year is exactly 4 digits (`%Y` compiles to `\d\d\d\d`),
month/day/hour/minute are 1-2 digits (matched greedily, as the generated
regex alternations do, with their value ranges checked), literal separators,
at least one whitespace character between date and time, the whole string
must be consumed, and the field values must form a valid calendar datetime
(otherwise Python raises `ValueError`). -/
def parseDT (s : String) : Option DateTimeVal := do
  let (y, r1) ← takeYear s.data
  let r2 ← expectChar '-' r1
  let (mo, r3) ← takeDigits 2 r2
  let r4 ← expectChar '-' r3
  let (d, r5) ← takeDigits 2 r4
  let r6 ← expectWS r5
  let (h, r7) ← takeDigits 2 r6
  let r8 ← expectChar ':' r7
  let (mi, r9) ← takeDigits 2 r8
  if r9.isEmpty ∧ 1 ≤ y ∧ 1 ≤ mo ∧ mo ≤ 12 ∧ 1 ≤ d ∧ d ≤ daysInMonth y mo ∧ h ≤ 23 ∧ mi ≤ 59 then
    some ⟨y, mo, d, h, mi⟩
  else none

/-- Days before month `m` in year `y`; mirrors CPython's `_days_before_month`. -/
def daysBeforeMonth (y m : Nat) : Nat :=
  (List.range (m - 1)).foldl (fun acc i => acc + daysInMonth y (i + 1)) 0

/-- Proleptic Gregorian ordinal of a date (day 1 = 0001-01-01), mirroring
CPython's `_ymd2ord`. -/
def toOrdinal (y m d : Nat) : Nat :=
  365 * (y - 1) + (y - 1) / 4 - (y - 1) / 100 + (y - 1) / 400 + daysBeforeMonth y m + d

/-- Seconds on a linear time axis for a parsed datetime; differences of these
values agree with Python `datetime` subtraction and SQL timestamp
subtraction. -/
def toEpochSec (t : DateTimeVal) : Int :=
  (((((toOrdinal t.year t.month t.day) * 24 + t.hour) * 60 + t.minute) * 60 : Nat) : Int)

/-- Rounding to one decimal place, as `round(x, 1)` does in the source
(the source note says either round-half-even or round-half-away is
acceptable; ties only differ at exact multiples of 0.05 and no claim depends
on the tie direction). -/
def round1 (q : ℚ) : ℚ := ((round (10 * q) : ℤ) : ℚ) / 10

/-- Codepoint-lexicographic non-strict comparison of character lists; the
model of SQL `ORDER BY` on a text column. -/
def charListLe : List Char → List Char → Bool
  | [], _ => true
  | _ :: _, [] => false
  | a :: as, b :: bs => if a = b then charListLe as bs else decide (a < b)

/-- Codepoint-lexicographic strict comparison of character lists. -/
def charListLt : List Char → List Char → Bool
  | [], [] => false
  | [], _ :: _ => true
  | _ :: _, [] => false
  | a :: as, b :: bs => if a = b then charListLt as bs else decide (a < b)

/-! ## Data model: the four tables read by the core -/

/-- A row of the `resources` table. -/
structure Resource where
  reresourceid : String
  redescri : String
  retype : String
  recodcal : String
  flactive : Nat
deriving DecidableEq, Repr

/-- A row of the `resourcelist` table: a committed reservation interval
occupying one resource. -/
structure ResourceListRow where
  rlresourceid : String
  rlprevbegin : Int
  rlprevend : Int
deriving DecidableEq, Repr

/-- A row of the `tasks` table. -/
structure TaskRow where
  tetitle : String
  tetaskid : String
  tecodcal : String
  telocation : String
  telisris : String
  teprevbegin : Int
  teprevend : Int
  testato : String
deriving DecidableEq, Repr

/-- A row of the `calendar` table. -/
structure CalendarRow where
  cacodcal : String
  cadescri : String
deriving DecidableEq, Repr

/-- The database state a tool invocation reads. -/
structure DB where
  resources : List Resource
  resourcelist : List ResourceListRow
  tasks : List TaskRow
  calendar : List CalendarRow
deriving DecidableEq, Repr

/-- The failure modes of the modelled tools.  In the source every failure is
caught and serialised as a JSON object with an `error` message; the
constructors record which failure produced the message. -/
inductive ToolError where
  /-- `ValueError` raised by `datetime.strptime` on the given input string. -/
  | parseError (input : String)
  /-- psycopg2 parameter-arity failure: the hard-coded `IN (%s, %s, %s)`
  clause needs exactly three calendar codes. -/
  | paramArity
  /-- the explicit "Risorsa ... non trovata" error report. -/
  | notFoundRes (token : String)
deriving DecidableEq, Repr

/-! ## ResourceResolver (`database.resolve_resource_info`) -/

/-- Predicate of the exact-id query:
`UPPER(reresourceid) = UPPER(token) AND flactive = 1`. -/
def exactPred (token : String) (r : Resource) : Bool :=
  (upperChars r.reresourceid.data == upperChars token.data) && (r.flactive == 1)

/-- The `LIKE` pattern built by the source: `f"%{resource}%"`, then lowered
by SQL `LOWER`. -/
def likePattern (token : String) : List Char :=
  lowerChars ('%' :: token.data ++ ['%'])

/-- Predicate of the description query:
`LOWER(redescri) LIKE LOWER('%token%') AND flactive = 1`. -/
def descPred (token : String) (r : Resource) : Bool :=
  likeMatch (likePattern token) (lowerChars r.redescri.data) && (r.flactive == 1)

/-- `ORDER BY reresourceid` comparison (codepoint-lexicographic, the order
Lean's own `String` order also uses). -/
def relId (a b : Resource) : Prop :=
  charListLe a.reresourceid.data b.reresourceid.data = true

instance : DecidableRel relId := fun a b =>
  inferInstanceAs (Decidable (charListLe a.reresourceid.data b.reresourceid.data = true))

/-- Result of `resolve_resource_info`.  The Python function returns a dict
whose `type` field is `exact`, `single`, `multiple` or `not_found`; `exact`
always carries exactly one resource and the description path always carries
at least one, so the shape is captured by the constructors.  The dict's
`calendar_code` is the calendar of the (first) carried resource. -/
inductive ResolutionResult where
  | exactRes (r : Resource)
  | descRes (first : Resource) (rest : List Resource)
  | notFound
deriving DecidableEq, Repr

/-- The `resources` list of the returned dict (empty when `not_found`). -/
def ResolutionResult.resourcesOf : ResolutionResult → List Resource
  | .exactRes r => [r]
  | .descRes f rest => f :: rest
  | .notFound => []

/-- The `type` string of the returned dict. -/
def ResolutionResult.kindStr : ResolutionResult → String
  | .exactRes _ => "exact"
  | .descRes _ rest => if rest.isEmpty then "single" else "multiple"
  | .notFound => "not_found"

/-- The `calendar_code` entry of the returned dict, when present. -/
def ResolutionResult.calCode : ResolutionResult → Option String
  | .exactRes r => some r.recodcal
  | .descRes f _ => some f.recodcal
  | .notFound => none

/-- `database.resolve_resource_info`: exact-id lookup first (`fetchone`,
i.e. first matching row); otherwise all description matches ordered by
resource id. -/
def resolve_resource_info (db : DB) (resource : String) : ResolutionResult :=
  match db.resources.find? (exactPred resource) with
  | some r => .exactRes r
  | none =>
    match List.insertionSort relId (db.resources.filter (descPred resource)) with
    | [] => .notFound
    | m :: rest => .descRes m rest

/-! ## IntervalOverlapEngine (conflict queries over `resourcelist`) -/

/-- `SELECT COUNT(*) FROM resourcelist WHERE rlresourceid = rid AND
(rlprevbegin < ed AND rlprevend > sd)` — the strict-overlap conflict count
used by `check_resource_availability`. -/
def countConflicts (rows : List ResourceListRow) (rid : String) (sd ed : Int) : Nat :=
  (rows.filter (fun r =>
    r.rlresourceid == rid && decide (r.rlprevbegin < ed) && decide (sd < r.rlprevend))).length

/-- Whether `rid` appears in the grouped conflict query's result mapping
(equivalently, in `find_free_resources`' `busy_resources` CTE): a
`GROUP BY` / `DISTINCT` over the same strictly-overlapping rows yields a key
for `rid` iff at least one such row exists. -/
def busyKey (rows : List ResourceListRow) (sd ed : Int) (rid : String) : Bool :=
  rows.any (fun r =>
    r.rlresourceid == rid && decide (r.rlprevbegin < ed) && decide (sd < r.rlprevend))

/-! ## AvailabilityQueryService (`check_resource_availability`) -/

/-- The `risultato` object of the multiple-resource response. -/
structure MultiResult where
  risorse_trovate : Nat
  elenco_risorse : List String
  almeno_una_libera : Bool
  risorse_libere : List String
  risorse_occupate : List String
  totale_libere : Nat
  totale_occupate : Nat
deriving DecidableEq, Repr

/-- The two success shapes of `check_resource_availability`:
`tipo = 'risorsa_specifica'` or `tipo = 'ricerca_multipla'`. -/
inductive AvailResponse where
  | specific (ricerca id descrizione : String) (disponibile : Bool) (conflitti : Nat)
  | multiResp (ricerca : String) (res : MultiResult)
deriving DecidableEq, Repr

/-- `check_resource_availability`.  The second component counts the conflict
queries issued against `resourcelist` during the call (0 or 1); the
resolution queries of `resolve_resource_info` are not conflict queries. -/
def check_resource_availability (db : DB) (resource startTime endTime : String) :
    Except ToolError AvailResponse × Nat :=
  match parseDT startTime with
  | none => (.error (.parseError startTime), 0)
  | some sdt =>
    match parseDT endTime with
    | none => (.error (.parseError endTime), 0)
    | some edt =>
      let sd := toEpochSec sdt
      let ed := toEpochSec edt
      match resolve_resource_info db resource with
      | .notFound => (.error (.notFoundRes resource), 0)
      | .exactRes r =>
        let cnt := countConflicts db.resourcelist r.reresourceid sd ed
        (.ok (.specific resource r.reresourceid r.redescri (cnt == 0) cnt), 1)
      | .descRes f rest =>
        let ids := (f :: rest).map (fun r => r.reresourceid)
        let free := ids.filter (fun rid => !(busyKey db.resourcelist sd ed rid))
        let busy := ids.filter (fun rid => busyKey db.resourcelist sd ed rid)
        (.ok (.multiResp resource
          ⟨(f :: rest).length, ids, decide (0 < free.length), free, busy,
            free.length, busy.length⟩), 1)

/-! ## BookingAggregationService (`get_active_bookings`) -/

/-- A row of the aggregation query's `SELECT` list; `durata_ore` is
`EXTRACT(EPOCH FROM (teprevend - teprevbegin)) / 3600`. -/
structure BookingRow where
  evento : String
  id_evento : String
  cod_calendario : String
  nome_calendario : String
  location : String
  lista_risorse : String
  inizio : Int
  fine : Int
  durata_ore : ℚ
deriving DecidableEq, Repr

/-- Projection of a joined `tasks`/`calendar` pair onto the `SELECT` list. -/
def mkBookingRow (t : TaskRow) (c : CalendarRow) : BookingRow :=
  ⟨t.tetitle, t.tetaskid, c.cacodcal, c.cadescri, t.telocation, t.telisris,
    t.teprevbegin, t.teprevend, ((t.teprevend - t.teprevbegin : ℤ) : ℚ) / 3600⟩

/-- `ORDER BY cadescri, teprevbegin` comparison. -/
def rowLe (a b : BookingRow) : Prop :=
  charListLt a.nome_calendario.data b.nome_calendario.data = true ∨
    (a.nome_calendario = b.nome_calendario ∧ a.inizio ≤ b.inizio)

instance : DecidableRel rowLe := fun _ _ =>
  inferInstanceAs (Decidable (_ ∨ _))

/-- The aggregation query: join `tasks` to `calendar` on
`tecodcal = cacodcal`, keep rows with `teprevbegin <= ed AND
teprevend >= sd AND testato = 'C' AND cacodcal IN codes`, order by
calendar name then start.  Note the non-strict `<=` / `>=` comparisons of the
source — they differ from the strict conflict predicate above. -/
def selectedRows (db : DB) (codes : List String) (sd ed : Int) : List BookingRow :=
  List.insertionSort rowLe
    ((db.tasks.filter (fun t =>
        decide (t.teprevbegin ≤ ed) && decide (sd ≤ t.teprevend) && (t.testato == "C"))).flatMap
      (fun t =>
        (db.calendar.filter (fun c =>
            c.cacodcal == t.tecodcal && codes.elem c.cacodcal)).map (mkBookingRow t)))

/-- A per-event descriptor of the response (`evento_info` in the source);
the duration is rounded to one decimal here, while the group totals keep
accumulating the unrounded value. -/
structure EventoInfo where
  evento : String
  id_evento : String
  inizio : Int
  fine : Int
  durata_ore : ℚ
  risorse_impegnate : String
deriving DecidableEq, Repr

/-- Build the per-event descriptor from a query row. -/
def mkEvento (r : BookingRow) : EventoInfo :=
  ⟨r.evento, r.id_evento, r.inizio, r.fine, round1 r.durata_ore, r.lista_risorse⟩

/-- One entry of the `bookings_by_resource` dict while the loop runs:
calendar code (the key), display name, events so far, unrounded hour total. -/
structure GroupAcc where
  cod : String
  nome_calendario : String
  eventi : List EventoInfo
  oreRaw : ℚ
deriving DecidableEq, Repr

/-- Dict entry created when a calendar code is first seen (the source
creates an empty entry and immediately appends the event and its
duration). -/
def freshGroup (r : BookingRow) : GroupAcc :=
  ⟨r.cod_calendario, r.nome_calendario, [mkEvento r], r.durata_ore⟩

/-- Append one more event of an already-present calendar code. -/
def extendGroup (g : GroupAcc) (r : BookingRow) : GroupAcc :=
  { g with eventi := g.eventi ++ [mkEvento r], oreRaw := g.oreRaw + r.durata_ore }

/-- Insert-or-update of the insertion-ordered dict: update the entry with
the row's calendar code if present, else append a new entry at the end. -/
def updateGroup (r : BookingRow) : List GroupAcc → List GroupAcc
  | [] => [freshGroup r]
  | g :: gs =>
    if g.cod == r.cod_calendario then extendGroup g r :: gs
    else g :: updateGroup r gs

/-- The grouping loop of `get_active_bookings` over the query rows. -/
def buildGroups (rows : List BookingRow) : List GroupAcc :=
  rows.foldl (fun gs r => updateGroup r gs) []

/-- The `total_hours` accumulator: sum of the unrounded per-row durations. -/
def totalHours (rows : List BookingRow) : ℚ :=
  (rows.map (fun r => r.durata_ore)).sum

/-- One value of the response's `risorse` mapping after the final
per-group rounding pass. -/
structure CalGroupOut where
  cod_calendario : String
  nome_calendario : String
  eventi : List EventoInfo
  ore_totali : ℚ
deriving DecidableEq, Repr

/-- Final rounding of a group's `ore_totali`. -/
def finishGroup (g : GroupAcc) : CalGroupOut :=
  ⟨g.cod, g.nome_calendario, g.eventi, round1 g.oreRaw⟩

/-- The success response of `get_active_bookings`. -/
structure AggregateReport where
  periodo_inizio : String
  periodo_fine : String
  durata_totale_ore : ℚ
  risorse_impegnate : Nat
  eventi_totali : Nat
  ore_totali : ℚ
  risorse : List CalGroupOut
deriving DecidableEq, Repr

/-- `get_active_bookings`.  The `IN (%s, %s, %s)` clause of the source query
hard-codes three placeholders, so `cursor.execute` raises (and the tool
returns its error report) unless the configured allow-list has exactly three
codes. -/
def get_active_bookings (db : DB) (codes : List String) (startTime endTime : String) :
    Except ToolError AggregateReport :=
  match parseDT startTime with
  | none => .error (.parseError startTime)
  | some sdt =>
    match parseDT endTime with
    | none => .error (.parseError endTime)
    | some edt =>
      if codes.length = 3 then
        let sd := toEpochSec sdt
        let ed := toEpochSec edt
        let rows := selectedRows db codes sd ed
        .ok ⟨startTime, endTime, round1 (((ed - sd : ℤ) : ℚ) / 3600),
          (buildGroups rows).length, rows.length, round1 (totalHours rows),
          (buildGroups rows).map finishGroup⟩
      else .error .paramArity

/-! ## FreeResourceFinder (`find_free_resources`) and resource listing -/

/-- One free resource in the grouped response. -/
structure FreeResourceItem where
  id : String
  descrizione : String
  tipo_codice : String
deriving DecidableEq, Repr

/-- One label group of the `risorse_per_tipo` mapping. -/
structure TypeGroup where
  label : String
  items : List FreeResourceItem
deriving DecidableEq, Repr

/-- The success response of `find_free_resources`. -/
structure FreeReport where
  periodo_inizio : String
  periodo_fine : String
  durata_ore : ℚ
  risorse_libere_totali : Nat
  tipi_disponibili : Nat
  risorse_per_tipo : List TypeGroup
deriving DecidableEq, Repr

/-- The `CASE` expression mapping a resource type code to its label. -/
def typeLabel (roomsT vehiclesT projT : String) (retype : String) : String :=
  if retype == roomsT then "Aule/Stanze"
  else if retype == vehiclesT then "Automezzi"
  else if retype == projT then "Proiettori"
  else "Altro"

/-- `ORDER BY retype, reresourceid` comparison. -/
def resTypeLe (a b : Resource) : Prop :=
  charListLt a.retype.data b.retype.data = true ∨
    (a.retype = b.retype ∧ charListLe a.reresourceid.data b.reresourceid.data = true)

instance : DecidableRel resTypeLe := fun _ _ =>
  inferInstanceAs (Decidable (_ ∨ _))

/-- Insert-or-append for the insertion-ordered `resources_by_type` dict. -/
def updateTypeGroup (lbl : String) (it : FreeResourceItem) : List TypeGroup → List TypeGroup
  | [] => [⟨lbl, [it]⟩]
  | g :: gs =>
    if g.label == lbl then ⟨g.label, g.items ++ [it]⟩ :: gs
    else g :: updateTypeGroup lbl it gs

/-- `find_free_resources`: active resources whose id is not among the
strictly-overlapping reservations' resource ids, grouped by type label. -/
def find_free_resources (db : DB) (roomsT vehiclesT projT : String)
    (startTime endTime : String) : Except ToolError FreeReport :=
  match parseDT startTime with
  | none => .error (.parseError startTime)
  | some sdt =>
    match parseDT endTime with
    | none => .error (.parseError endTime)
    | some edt =>
      let sd := toEpochSec sdt
      let ed := toEpochSec edt
      let freeRes := List.insertionSort resTypeLe
        (db.resources.filter (fun r =>
          r.flactive == 1 && !(busyKey db.resourcelist sd ed r.reresourceid)))
      let groups := freeRes.foldl
        (fun gs r => updateTypeGroup (typeLabel roomsT vehiclesT projT r.retype)
          ⟨r.reresourceid, r.redescri, r.retype⟩ gs) []
      .ok ⟨startTime, endTime, round1 (((ed - sd : ℤ) : ℚ) / 3600),
        freeRes.length, groups.length, groups⟩

/-- One entry of the `list_available_resources` response. -/
structure AvailResourceItem where
  id : String
  description : String
  type : String
  calendar_code : String
deriving DecidableEq, Repr

/-- The success response of `list_available_resources`. -/
structure AvailListReport where
  total_resources : Nat
  resources : List AvailResourceItem
deriving DecidableEq, Repr

/-- `ORDER BY retype, redescri` comparison. -/
def resDescrLe (a b : Resource) : Prop :=
  charListLt a.retype.data b.retype.data = true ∨
    (a.retype = b.retype ∧ charListLe a.redescri.data b.redescri.data = true)

instance : DecidableRel resDescrLe := fun _ _ =>
  inferInstanceAs (Decidable (_ ∨ _))

/-- `list_available_resources`: all active resources, ordered by type then
description. -/
def list_available_resources (db : DB) : Except ToolError AvailListReport :=
  let rs := List.insertionSort resDescrLe (db.resources.filter (fun r => r.flactive == 1))
  .ok ⟨rs.length, rs.map (fun r => ⟨r.reresourceid, r.redescri, r.retype, r.recodcal⟩)⟩

/-! ## Accessors used by the verification -/

/-- Lookup of the dict entry with calendar code `c` (dicts are modelled as
insertion-ordered association lists with unique keys). -/
def findGroup (gs : List GroupAcc) (c : String) : Option GroupAcc :=
  gs.find? (fun g => g.cod == c)

/-- Unrounded hour total accumulated for calendar code `c` (0 if absent). -/
def groupRaw (gs : List GroupAcc) (c : String) : ℚ :=
  ((findGroup gs c).map (fun g => g.oreRaw)).getD 0

/-- Event list accumulated for calendar code `c` (empty if absent). -/
def groupEv (gs : List GroupAcc) (c : String) : List EventoInfo :=
  ((findGroup gs c).map (fun g => g.eventi)).getD []

/-! ## Concrete fixtures used by witnesses and counterexamples -/

/-- A calendar row. -/
def calFix : CalendarRow := ⟨"CAL1", "Aule"⟩

/-- A confirmed task starting exactly at the end of the 10:00-11:00 query
window used below. -/
def taskLate : TaskRow :=
  ⟨"Lezione", "T1", "CAL1", "Aula 1", "AULA01",
    toEpochSec ⟨2024, 6, 1, 11, 0⟩, toEpochSec ⟨2024, 6, 1, 12, 0⟩, "C"⟩

/-- Database with the boundary task only. -/
def dbBoundary : DB := ⟨[], [], [taskLate], [calFix]⟩

/-- A confirmed task lying strictly inside the 10:00-11:00 window. -/
def taskMid : TaskRow :=
  ⟨"Riunione", "T2", "CAL1", "Sala", "R1",
    toEpochSec ⟨2024, 6, 1, 10, 15⟩, toEpochSec ⟨2024, 6, 1, 10, 45⟩, "C"⟩

/-- Database with the strictly-overlapping task only. -/
def dbMid : DB := ⟨[], [], [taskMid], [calFix]⟩

/-- A three-element calendar allow-list. -/
def codes3 : List String := ["CAL1", "CAL2", "CAL3"]

/-- Resource whose description contains "magna". -/
def resAulaMagna : Resource := ⟨"AULA01", "Aula Magna", "A", "CAL1", 1⟩

/-- Resource whose description contains "corsi". -/
def resAulaCorsi : Resource := ⟨"AULA02", "Aula Corsi", "A", "CAL1", 1⟩

/-- Second resource whose description contains "corsi". -/
def resAulaCorsiG : Resource := ⟨"AULA03", "Aula Corsi Grande", "A", "CAL1", 1⟩

/-- Resource with a wildcard-free one-word description. -/
def resPlain : Resource := ⟨"R1", "Aula", "A", "CAL1", 1⟩

/-- Reservation occupying AULA02 from 09:00 to 10:00. -/
def rsvAula2 : ResourceListRow :=
  ⟨"AULA02", toEpochSec ⟨2024, 6, 1, 9, 0⟩, toEpochSec ⟨2024, 6, 1, 10, 0⟩⟩

/-- Database with one resource and no reservations. -/
def dbSingle : DB := ⟨[resAulaMagna], [], [], []⟩

/-- Database with two "corsi" resources, one of them reserved 09:00-10:00. -/
def dbMulti : DB := ⟨[resAulaCorsiG, resAulaCorsi], [rsvAula2], [], []⟩

/-- Database with the one-word-description resource only. -/
def dbUnderscore : DB := ⟨[resPlain], [], [], []⟩

/-- Resource whose id is exactly AULA01. -/
def resIdMatch : Resource := ⟨"AULA01", "Aula Grande", "A", "CAL1", 1⟩

/-- Decoy resource whose description contains "aula01" as a substring. -/
def resDescrTrap : Resource := ⟨"ZZZ9", "contains aula01 text", "A", "CAL2", 1⟩

/-- Database where a description decoy precedes the exact-id resource. -/
def dbPrecedence : DB := ⟨[resDescrTrap, resIdMatch], [], [], []⟩

/-- Empty database. -/
def dbEmpty : DB := ⟨[], [], [], []⟩

/-- Reservation of AULA01 ending exactly at 11:00. -/
def rsvBack : ResourceListRow :=
  ⟨"AULA01", toEpochSec ⟨2024, 6, 1, 10, 0⟩, toEpochSec ⟨2024, 6, 1, 11, 0⟩⟩

/-- A query row with duration 1.5 hours on calendar CAL1. -/
def rowA : BookingRow := ⟨"e1", "T1", "CAL1", "Aule", "l1", "r1", 0, 5400, 3 / 2⟩

/-- A query row with duration 1/3 hour on calendar CAL2. -/
def rowB : BookingRow := ⟨"e2", "T2", "CAL2", "Mezzi", "l2", "r2", 0, 1200, 1 / 3⟩

/-! ## Helper lemmas about LIKE patterns built from wildcard-free tokens -/

/-- A lone `%` pattern matches everything. -/
theorem likeMatch_percent_nil : ∀ cs : List Char, likeMatch ['%'] cs = true
  | [] => rfl
  | c :: cs => by
    have ih := likeMatch_percent_nil cs
    show likeCons c (fun qs => likeText cs qs) ['%'] = true
    simp [likeCons]
    exact ih

/-- A pattern starting with `%` matches iff some suffix matches the rest. -/
theorem likeMatch_percent_iff (p : List Char) :
    ∀ cs : List Char, (likeMatch ('%' :: p) cs = true ↔ ∃ s, s <:+ cs ∧ likeMatch p s = true)
  | [] => by
    have hstep : likeMatch ('%' :: p) [] = likeMatch p [] := by
      simp [likeMatch, likeText, likeEmpty]
    rw [hstep]
    constructor
    · intro h; exact ⟨[], List.suffix_rfl, h⟩
    · rintro ⟨s, hs, h⟩
      rw [List.suffix_nil.mp hs] at h; exact h
  | c :: cs => by
    have ih := likeMatch_percent_iff p cs
    have hstep : likeMatch ('%' :: p) (c :: cs) =
        (likeMatch p (c :: cs) || likeMatch ('%' :: p) cs) := by
      simp [likeMatch, likeText, likeCons]
    rw [hstep]
    constructor
    · intro h
      rw [Bool.or_eq_true] at h
      rcases h with h1 | h2
      · exact ⟨c :: cs, List.suffix_rfl, h1⟩
      · obtain ⟨s, hs, hm⟩ := ih.mp h2
        exact ⟨s, hs.trans (List.suffix_cons c cs), hm⟩
    · rintro ⟨s, hs, hm⟩
      rw [Bool.or_eq_true]
      rcases List.suffix_cons_iff.mp hs with rfl | hs'
      · exact Or.inl hm
      · exact Or.inr (ih.mpr ⟨s, hs', hm⟩)

/-- For a wildcard-free literal `t`, the pattern `t ++ ['%']` matches iff `t`
is a prefix of the text. -/
theorem likeMatch_lit_percent :
    ∀ t : List Char, (∀ c ∈ t, c ≠ '%' ∧ c ≠ '_' ∧ c ≠ '\\') →
      ∀ cs : List Char, (likeMatch (t ++ ['%']) cs = true ↔ t <+: cs)
  | [], _, cs => by
    simpa using likeMatch_percent_nil cs
  | a :: t, ht, cs => by
    have ha := ht a (List.mem_cons_self a t)
    have ih := likeMatch_lit_percent t (fun c hc => ht c (List.mem_cons_of_mem a hc))
    cases cs with
    | nil =>
      constructor
      · intro h
        rw [List.cons_append] at h
        simp [likeMatch, likeText, likeEmpty, ha.1] at h
      · intro h
        exact absurd (List.prefix_nil.mp h) (by simp)
    | cons c cs =>
      rw [List.cons_append]
      have hstep : likeMatch (a :: (t ++ ['%'])) (c :: cs) =
          ((decide (a = '_') || (a == c)) && likeMatch (t ++ ['%']) cs) := by
        simp [likeMatch, likeText, likeCons, ha.1, ha.2.2]
      rw [hstep, List.cons_prefix_cons]
      rw [Bool.and_eq_true, Bool.or_eq_true]
      simp only [decide_eq_true_eq, beq_iff_eq]
      constructor
      · rintro ⟨h1 | h1, h2⟩
        · exact absurd h1 ha.2.1
        · exact ⟨h1, (ih cs).mp h2⟩
      · rintro ⟨h1, h2⟩
        exact ⟨Or.inr h1, (ih cs).mpr h2⟩

/-- For a wildcard-free token `t`, the pattern `%t%` matches exactly the
texts containing `t` as a contiguous sublist. -/
theorem likeMatch_contains_iff (t : List Char)
    (ht : ∀ c ∈ t, c ≠ '%' ∧ c ≠ '_' ∧ c ≠ '\\') (cs : List Char) :
    (likeMatch ('%' :: (t ++ ['%'])) cs = true ↔ t <:+: cs) := by
  rw [likeMatch_percent_iff]
  constructor
  · rintro ⟨s, hs, hm⟩
    exact List.infix_iff_prefix_suffix.mpr ⟨s, (likeMatch_lit_percent t ht s).mp hm, hs⟩
  · intro h
    obtain ⟨s, hp, hsuf⟩ := List.infix_iff_prefix_suffix.mp h
    exact ⟨s, hsuf, (likeMatch_lit_percent t ht s).mpr hp⟩

/-- `charListLe` is total. -/
theorem charListLe_total : ∀ as bs : List Char,
    charListLe as bs = true ∨ charListLe bs as = true
  | [], _ => Or.inl rfl
  | _ :: _, [] => Or.inr rfl
  | a :: as, b :: bs => by
    by_cases h : a = b
    · subst h
      rcases charListLe_total as bs with h | h
      · exact Or.inl (by simp [charListLe, h])
      · exact Or.inr (by simp [charListLe, h])
    · rcases lt_or_gt_of_ne h with hlt | hgt
      · exact Or.inl (by simp [charListLe, h, hlt])
      · have hne : ¬(b = a) := fun e => h e.symm
        exact Or.inr (by simp [charListLe, hne, hgt])

/-- `charListLe` is transitive. -/
theorem charListLe_trans : ∀ as bs cs : List Char,
    charListLe as bs = true → charListLe bs cs = true → charListLe as cs = true
  | [], _, _, _, _ => rfl
  | _ :: _, [], _, h1, _ => absurd h1 (by simp [charListLe])
  | _ :: _, _ :: _, [], _, h2 => absurd h2 (by simp [charListLe])
  | a :: as, b :: bs, c :: cs, h1, h2 => by
    by_cases hab : a = b <;> by_cases hbc : b = c
    · subst hab; subst hbc
      simp only [charListLe, if_pos rfl] at h1 h2 ⊢
      exact charListLe_trans as bs cs h1 h2
    · subst hab
      simp only [charListLe, if_pos rfl, if_neg hbc, decide_eq_true_eq] at h2 ⊢
      exact h2
    · subst hbc
      simp only [charListLe, if_pos rfl, if_neg hab, decide_eq_true_eq] at h1 ⊢
      exact h1
    · simp only [charListLe, if_neg hab, if_neg hbc, decide_eq_true_eq] at h1 h2
      have hac : a < c := lt_trans h1 h2
      simp only [charListLe, if_neg (ne_of_lt hac), decide_eq_true_eq]
      exact hac

/-- The pattern built by the source lowers to `%` + lowered token + `%`. -/
theorem likePattern_eq (token : String) :
    likePattern token = '%' :: (lowerChars token.data ++ ['%']) := by
  have h : Char.toLower '%' = '%' := rfl
  simp [likePattern, lowerChars, h]

/-! ## Helper lemmas about the aggregation query and the grouping loop -/

/-- Characterisation of the rows returned by the aggregation query. -/
theorem mem_selectedRows {db : DB} {codes : List String} {sd ed : Int} {row : BookingRow} :
    row ∈ selectedRows db codes sd ed ↔
      ∃ t ∈ db.tasks, ∃ c ∈ db.calendar,
        c.cacodcal = t.tecodcal ∧ t.teprevbegin ≤ ed ∧ sd ≤ t.teprevend ∧
        t.testato = "C" ∧ t.tecodcal ∈ codes ∧ row = mkBookingRow t c := by
  unfold selectedRows
  rw [List.mem_insertionSort]
  simp only [List.mem_flatMap, List.mem_filter, List.mem_map, Bool.and_eq_true,
    decide_eq_true_eq, beq_iff_eq, List.elem_iff]
  constructor
  · rintro ⟨t, ⟨ht, ⟨h1, h2⟩, h3⟩, c, ⟨⟨hc, hcc, hin⟩, hrow⟩⟩
    exact ⟨t, ht, c, hc, hcc, h1, h2, h3, hcc ▸ hin, hrow.symm⟩
  · rintro ⟨t, ht, c, hc, hcc, h1, h2, h3, hin, hrow⟩
    exact ⟨t, ⟨ht, ⟨h1, h2⟩, h3⟩, c, ⟨⟨hc, hcc, hcc ▸ hin⟩, hrow.symm⟩⟩

/-- A filter and its complement partition a list's length. -/
theorem length_filter_partition {α : Type} (p : α → Bool) (l : List α) :
    (l.filter p).length + (l.filter (fun x => !(p x))).length = l.length := by
  induction l with
  | nil => rfl
  | cons x l ih =>
    cases hp : p x <;> simp [List.filter_cons, hp] <;> omega

/-- Dict lookup at a matching head. -/
theorem findGroup_cons_pos {g : GroupAcc} {c : String} (gs : List GroupAcc)
    (h : (g.cod == c) = true) : findGroup (g :: gs) c = some g :=
  @List.find?_cons_of_pos _ (fun gg : GroupAcc => gg.cod == c) g gs h

/-- Dict lookup skipping a non-matching head. -/
theorem findGroup_cons_neg {g : GroupAcc} {c : String} (gs : List GroupAcc)
    (h : ¬((g.cod == c) = true)) : findGroup (g :: gs) c = findGroup gs c :=
  @List.find?_cons_of_neg _ (fun gg : GroupAcc => gg.cod == c) g gs h

/-- `findGroup` after one insert-or-update step. -/
theorem findGroup_updateGroup (r : BookingRow) (gs : List GroupAcc) (c : String) :
    findGroup (updateGroup r gs) c =
      if r.cod_calendario = c then
        some (match findGroup gs c with
              | none => freshGroup r
              | some g => extendGroup g r)
      else findGroup gs c := by
  induction gs with
  | nil =>
    by_cases h : r.cod_calendario = c
    · have hb : ((freshGroup r).cod == c) = true := by simp [freshGroup, h]
      rw [if_pos h]
      show findGroup [freshGroup r] c = _
      rw [findGroup_cons_pos _ hb]
      rfl
    · have hb : ¬(((freshGroup r).cod == c) = true) := by simpa [freshGroup] using h
      rw [if_neg h]
      show findGroup [freshGroup r] c = findGroup [] c
      rw [findGroup_cons_neg _ hb]
  | cons g gs ih =>
    cases hb1 : (g.cod == r.cod_calendario) with
    | true =>
      have h1 : g.cod = r.cod_calendario := by simpa using hb1
      have hup : updateGroup r (g :: gs) = extendGroup g r :: gs := by
        simp [updateGroup, hb1]
      by_cases h2 : r.cod_calendario = c
      · have hgc : (g.cod == c) = true := by simp [h1.trans h2]
        have hext : (((extendGroup g r).cod == c) = true) := by
          simp [extendGroup, h1.trans h2]
        rw [if_pos h2, hup, findGroup_cons_pos _ hext, findGroup_cons_pos _ hgc]
      · have hgc : ¬((g.cod == c) = true) := by
          simp only [beq_iff_eq]; exact fun hc => h2 (h1 ▸ hc)
        have hext : ¬(((extendGroup g r).cod == c) = true) := by
          simp only [extendGroup, beq_iff_eq]; exact fun hc => h2 (h1 ▸ hc)
        rw [if_neg h2, hup, findGroup_cons_neg _ hext, findGroup_cons_neg _ hgc]
    | false =>
      have h1 : ¬(g.cod = r.cod_calendario) := by simpa using hb1
      have hup : updateGroup r (g :: gs) = g :: updateGroup r gs := by
        simp [updateGroup, hb1]
      by_cases h2 : g.cod = c
      · have hr : ¬(r.cod_calendario = c) := fun hc => h1 (by rw [h2, hc])
        have hgc : ((g.cod == c) = true) := by simp [h2]
        rw [if_neg hr, hup, findGroup_cons_pos _ hgc, findGroup_cons_pos _ hgc]
      · have hgc : ¬((g.cod == c) = true) := by simpa using h2
        rw [hup, findGroup_cons_neg _ hgc, ih]
        by_cases h3 : r.cod_calendario = c
        · rw [if_pos h3, if_pos h3, findGroup_cons_neg _ hgc]
        · rw [if_neg h3, if_neg h3, findGroup_cons_neg _ hgc]

/-- Accumulated unrounded hours after one insert-or-update step. -/
theorem groupRaw_updateGroup (r : BookingRow) (gs : List GroupAcc) (c : String) :
    groupRaw (updateGroup r gs) c =
      if r.cod_calendario = c then groupRaw gs c + r.durata_ore else groupRaw gs c := by
  rw [groupRaw, findGroup_updateGroup]
  by_cases h : r.cod_calendario = c
  · cases hf : findGroup gs c <;>
      simp [h, hf, groupRaw, freshGroup, extendGroup]
  · simp [h, groupRaw]

/-- Accumulated event list after one insert-or-update step. -/
theorem groupEv_updateGroup (r : BookingRow) (gs : List GroupAcc) (c : String) :
    groupEv (updateGroup r gs) c =
      if r.cod_calendario = c then groupEv gs c ++ [mkEvento r] else groupEv gs c := by
  rw [groupEv, findGroup_updateGroup]
  by_cases h : r.cod_calendario = c
  · cases hf : findGroup gs c <;>
      simp [h, hf, groupEv, freshGroup, extendGroup]
  · simp [h, groupEv]

/-- Accumulated unrounded hours over the whole loop. -/
theorem groupRaw_foldl (rows : List BookingRow) :
    ∀ (gs : List GroupAcc) (c : String),
      groupRaw (rows.foldl (fun a r => updateGroup r a) gs) c =
        groupRaw gs c +
          ((rows.filter (fun r => r.cod_calendario == c)).map (fun r => r.durata_ore)).sum := by
  induction rows with
  | nil => simp
  | cons r rows ih =>
    intro gs c
    rw [List.foldl_cons, ih, List.filter_cons, groupRaw_updateGroup]
    by_cases h : r.cod_calendario = c
    · simp [h, add_assoc]
    · simp [h]

/-- Accumulated unrounded hours per calendar code of the final dict. -/
theorem groupRaw_buildGroups (rows : List BookingRow) (c : String) :
    groupRaw (buildGroups rows) c =
      ((rows.filter (fun r => r.cod_calendario == c)).map (fun r => r.durata_ore)).sum := by
  have h := groupRaw_foldl rows [] c
  simpa [buildGroups, groupRaw, findGroup] using h

/-- Accumulated event lists over the whole loop. -/
theorem groupEv_foldl (rows : List BookingRow) :
    ∀ (gs : List GroupAcc) (c : String),
      groupEv (rows.foldl (fun a r => updateGroup r a) gs) c =
        groupEv gs c ++ ((rows.filter (fun r => r.cod_calendario == c)).map mkEvento) := by
  induction rows with
  | nil => simp
  | cons r rows ih =>
    intro gs c
    rw [List.foldl_cons, ih, List.filter_cons, groupEv_updateGroup]
    by_cases h : r.cod_calendario = c
    · simp [h]
    · simp [h]

/-- Event list per calendar code of the final dict. -/
theorem groupEv_buildGroups (rows : List BookingRow) (c : String) :
    groupEv (buildGroups rows) c =
      (rows.filter (fun r => r.cod_calendario == c)).map mkEvento := by
  have h := groupEv_foldl rows [] c
  simpa [buildGroups, groupEv, findGroup] using h

/-- Calendar codes present after an insert-or-update step. -/
theorem cod_mem_updateGroup {r : BookingRow} {gs : List GroupAcc} {c : String}
    (h : c ∈ (updateGroup r gs).map (fun g => g.cod)) :
    c ∈ gs.map (fun g => g.cod) ∨ c = r.cod_calendario := by
  induction gs with
  | nil =>
    simp [updateGroup, freshGroup] at h
    exact Or.inr h
  | cons g gs ih =>
    by_cases h1 : g.cod = r.cod_calendario
    · simp only [updateGroup, h1] at h
      rw [if_pos (by simp [h1])] at h
      simp only [List.map_cons, List.mem_cons, extendGroup] at h
      rcases h with h | h
      · exact Or.inl (by simp [h])
      · exact Or.inl (by simp [h])
    · simp only [updateGroup] at h
      rw [if_neg (by simp [h1])] at h
      simp only [List.map_cons, List.mem_cons] at h
      rcases h with h | h
      · exact Or.inl (by simp [h])
      · rcases ih h with h' | h'
        · exact Or.inl (by simp; exact Or.inr (by simpa using h'))
        · exact Or.inr h'

/-- The insert-or-update step keeps the dict keys distinct. -/
theorem nodup_updateGroup (r : BookingRow) :
    ∀ {gs : List GroupAcc}, ((gs.map (fun g => g.cod)).Nodup) →
      (((updateGroup r gs).map (fun g => g.cod)).Nodup) := by
  intro gs
  induction gs with
  | nil => intro _; simp [updateGroup, freshGroup]
  | cons g gs ih =>
    intro hnd
    rw [List.map_cons, List.nodup_cons] at hnd
    by_cases h1 : g.cod = r.cod_calendario
    · simp only [updateGroup]
      rw [if_pos (by simp [h1])]
      rw [List.map_cons, List.nodup_cons]
      exact ⟨by simpa [extendGroup] using hnd.1, by simpa [extendGroup] using hnd.2⟩
    · simp only [updateGroup]
      rw [if_neg (by simp [h1])]
      rw [List.map_cons, List.nodup_cons]
      refine ⟨fun hmem => ?_, ih hnd.2⟩
      rcases cod_mem_updateGroup hmem with h' | h'
      · exact hnd.1 h'
      · exact h1 h'

/-- The dict built by the grouping loop has distinct calendar codes. -/
theorem nodup_buildGroups (rows : List BookingRow) :
    (((buildGroups rows).map (fun g => g.cod)).Nodup) := by
  have haux : ∀ (rs : List BookingRow) (gs : List GroupAcc),
      ((gs.map (fun g => g.cod)).Nodup) →
      (((rs.foldl (fun a r => updateGroup r a) gs).map (fun g => g.cod)).Nodup) := by
    intro rs
    induction rs with
    | nil => intro gs h; simpa using h
    | cons r rs ih =>
      intro gs h
      rw [List.foldl_cons]
      exact ih _ (nodup_updateGroup r h)
  simpa [buildGroups] using haux rows [] (by simp)

/-- In a dict with distinct keys, lookup of a member's key returns it. -/
theorem findGroup_of_mem {gs : List GroupAcc} {g : GroupAcc}
    (hnd : ((gs.map (fun g => g.cod)).Nodup)) (hm : g ∈ gs) :
    findGroup gs g.cod = some g := by
  induction gs with
  | nil => cases hm
  | cons g0 gs ih =>
    rw [List.map_cons, List.nodup_cons] at hnd
    rcases List.mem_cons.mp hm with rfl | hm'
    · rw [findGroup_cons_pos _ (by simp)]
    · have hne : ¬(g0.cod = g.cod) := by
        intro he
        exact hnd.1 (he ▸ List.mem_map_of_mem (fun g => g.cod) hm')
      rw [findGroup_cons_neg _ (by simpa using hne)]
      exact ih hnd.2 hm'

/-- Sum of the unrounded group totals after one insert-or-update step. -/
theorem sumRaw_updateGroup (r : BookingRow) (gs : List GroupAcc) :
    ((updateGroup r gs).map (fun g => g.oreRaw)).sum =
      (gs.map (fun g => g.oreRaw)).sum + r.durata_ore := by
  induction gs with
  | nil => simp [updateGroup, freshGroup]
  | cons g gs ih =>
    by_cases h1 : g.cod = r.cod_calendario
    · simp only [updateGroup]
      rw [if_pos (by simp [h1])]
      simp [extendGroup, add_right_comm, add_assoc]
    · simp only [updateGroup]
      rw [if_neg (by simp [h1])]
      simp [ih, add_assoc]

/-- The unrounded group totals always sum to the `total_hours` accumulator. -/
theorem sumRaw_buildGroups (rows : List BookingRow) :
    (((buildGroups rows).map (fun g => g.oreRaw)).sum) = totalHours rows := by
  have haux : ∀ (rs : List BookingRow) (gs : List GroupAcc),
      (((rs.foldl (fun a r => updateGroup r a) gs).map (fun g => g.oreRaw)).sum) =
        (gs.map (fun g => g.oreRaw)).sum + totalHours rs := by
    intro rs
    induction rs with
    | nil => intro gs; simp [totalHours]
    | cons r rs ih =>
      intro gs
      rw [List.foldl_cons, ih, sumRaw_updateGroup]
      simp [totalHours, add_assoc, add_comm, add_left_comm]
  simpa [buildGroups, totalHours] using haux rows []

/-! ## Helper lemmas about one-decimal rounding -/

/-- One-decimal rounding moves a rational by at most 1/20. -/
theorem abs_round1_sub (q : ℚ) : |round1 q - q| ≤ 1 / 20 := by
  have h := abs_sub_round (10 * q)
  have heq : round1 q - q = -((10 * q - ((round (10 * q) : ℤ) : ℚ)) / 10) := by
    rw [round1]; ring
  rw [heq, abs_neg, abs_div]
  have h10 : |(10 : ℚ)| = 10 := by norm_num
  rw [h10]
  rw [div_le_div_iff₀ (by norm_num) (by norm_num : (0:ℚ) < 20)]
  nlinarith [h]

/-- Rounding each list entry moves the sum by at most length/20. -/
theorem abs_sum_round1 (ts : List ℚ) :
    |(ts.map round1).sum - ts.sum| ≤ (ts.length : ℚ) / 20 := by
  induction ts with
  | nil => simp
  | cons a ts ih =>
    simp only [List.map_cons, List.sum_cons, List.length_cons]
    have h1 := abs_round1_sub a
    have htri : |round1 a + (ts.map round1).sum - (a + ts.sum)| ≤
        |round1 a - a| + |(ts.map round1).sum - ts.sum| := by
      have : round1 a + (ts.map round1).sum - (a + ts.sum) =
          (round1 a - a) + ((ts.map round1).sum - ts.sum) := by ring
      rw [this]
      exact abs_add _ _
    refine htri.trans ?_
    push_cast
    linarith [ih, h1]

/-- `round1` fixes zero. -/
theorem round1_zero : round1 0 = 0 := by
  simp [round1]

/-! ## Claim theorems -/

/-- C1 (counterexample): the aggregation query of `get_active_bookings` uses
non-strict comparisons, so a confirmed task starting exactly at the window's
end is selected (the report counts one event) even though the strict-overlap
predicate of the availability check is false for it. -/
theorem C1_counterexample :
    (get_active_bookings dbBoundary codes3 "2024-06-01 10:00" "2024-06-01 11:00").map
        (fun rep => rep.eventi_totali) = .ok 1 ∧
    ¬(taskLate.teprevbegin < toEpochSec ⟨2024, 6, 1, 11, 0⟩ ∧
      toEpochSec ⟨2024, 6, 1, 10, 0⟩ < taskLate.teprevend) := by
  constructor
  · rfl
  · rintro ⟨h1, _⟩
    exact lt_irrefl _ h1

/-- C1 (amended): `get_active_bookings` selects a row for a task/calendar
pair iff the task is confirmed, its calendar code is in the allow-list, and
its interval satisfies the NON-strict test
`taskStart <= windowEnd AND taskEnd >= windowStart` — not the strict
predicate used by the availability check. -/
theorem C1_nonstrict_selection (db : DB) (codes : List String) (sd ed : Int)
    (row : BookingRow) :
    row ∈ selectedRows db codes sd ed ↔
      ∃ t ∈ db.tasks, ∃ c ∈ db.calendar,
        c.cacodcal = t.tecodcal ∧ t.testato = "C" ∧ t.tecodcal ∈ codes ∧
        t.teprevbegin ≤ ed ∧ sd ≤ t.teprevend ∧ row = mkBookingRow t c := by
  rw [mem_selectedRows]
  constructor
  · rintro ⟨t, ht, c, hc, hcc, h1, h2, h3, hin, hrow⟩
    exact ⟨t, ht, c, hc, hcc, h3, hin, h1, h2, hrow⟩
  · rintro ⟨t, ht, c, hc, hcc, h3, hin, h1, h2, hrow⟩
    exact ⟨t, ht, c, hc, hcc, h1, h2, h3, hin, hrow⟩

/-- C2 (counterexample): a token matching exactly one resource by
description resolves with kind `single`, and `check_resource_availability`
then returns the multiple-resource report shape, not the single-resource
one the claim requires for `single`. -/
theorem C2_counterexample :
    (resolve_resource_info dbSingle "magna").kindStr = "single" ∧
    check_resource_availability dbSingle "magna" "2024-06-01 09:00" "2024-06-01 10:00" =
      (.ok (.multiResp "magna" ⟨1, ["AULA01"], true, ["AULA01"], [], 1, 0⟩), 1) := by
  exact ⟨rfl, rfl⟩

/-- C2 (amended): only an `exact` resolution yields the single-resource
report (resolved id, description, available iff the strict conflict count is
zero, and the raw count); a `single` resolution is handled by the
multiple-resource branch and yields the multi shape carrying that one
resource. -/
theorem C2_exact_single_report (db : DB) (token st et : String)
    (d1 d2 : DateTimeVal)
    (hp1 : parseDT st = some d1) (hp2 : parseDT et = some d2) :
    (∀ r, db.resources.find? (exactPred token) = some r →
       check_resource_availability db token st et =
         (.ok (.specific token r.reresourceid r.redescri
             (countConflicts db.resourcelist r.reresourceid (toEpochSec d1) (toEpochSec d2) == 0)
             (countConflicts db.resourcelist r.reresourceid (toEpochSec d1) (toEpochSec d2))), 1)) ∧
    (∀ f, resolve_resource_info db token = .descRes f [] →
       ∃ m : MultiResult,
         check_resource_availability db token st et = (.ok (.multiResp token m), 1) ∧
         m.risorse_trovate = 1 ∧ m.elenco_risorse = [f.reresourceid]) := by
  constructor
  · intro r hr
    have hres : resolve_resource_info db token = .exactRes r := by
      rw [resolve_resource_info, hr]
    simp only [check_resource_availability, hp1, hp2, hres]
  · intro f hres
    simp only [check_resource_availability, hp1, hp2, hres]
    exact ⟨_, rfl, rfl, rfl⟩

/-- C2 (witness): on a concrete database, an exact-id token yields the
single-resource report with availability true and conflict count 0. -/
theorem C2_exact_single_report_witness :
    check_resource_availability dbSingle "AULA01" "2024-06-01 09:00" "2024-06-01 10:00" =
      (.ok (.specific "AULA01" "AULA01" "Aula Magna" true 0), 1) := by
  rw [(C2_exact_single_report dbSingle "AULA01" "2024-06-01 09:00" "2024-06-01 10:00"
    ⟨2024, 6, 1, 9, 0⟩ ⟨2024, 6, 1, 10, 0⟩ rfl rfl).1 resAulaMagna rfl]
  rfl

/-- C3 (counterexample): with a one-element allow-list the hard-coded
`IN (%s, %s, %s)` clause makes `get_active_bookings` return an error report,
even though a confirmed task of an allow-listed calendar strictly overlaps
the window and should appear in the report according to the claim. -/
theorem C3_counterexample :
    get_active_bookings dbMid ["CAL1"] "2024-06-01 10:00" "2024-06-01 11:00" =
      .error .paramArity ∧
    taskMid.testato = "C" ∧ taskMid.tecodcal ∈ ["CAL1"] ∧
    taskMid.teprevbegin < toEpochSec ⟨2024, 6, 1, 11, 0⟩ ∧
    toEpochSec ⟨2024, 6, 1, 10, 0⟩ < taskMid.teprevend := by
  refine ⟨rfl, rfl, by simp [taskMid], by decide, by decide⟩

/-- C3 (amended): when the configured allow-list has exactly three codes,
`get_active_bookings` reports exactly the confirmed tasks of allow-listed
calendars overlapping the window (tasks in other calendars never appear);
for every other allow-list length the tool returns an error report instead. -/
theorem C3_allowlist_filter (db : DB) (codes : List String) (st et : String)
    (d1 d2 : DateTimeVal)
    (hp1 : parseDT st = some d1) (hp2 : parseDT et = some d2) :
    (codes.length = 3 →
       ∃ rep, get_active_bookings db codes st et = .ok rep ∧
         rep.risorse =
           (buildGroups (selectedRows db codes (toEpochSec d1) (toEpochSec d2))).map
             finishGroup ∧
         (∀ g ∈ rep.risorse, ∀ ev ∈ g.eventi,
            ∃ t ∈ db.tasks, ∃ c ∈ db.calendar,
              c.cacodcal = t.tecodcal ∧ t.testato = "C" ∧ t.tecodcal ∈ codes ∧
              t.teprevbegin ≤ toEpochSec d2 ∧ toEpochSec d1 ≤ t.teprevend ∧
              ev = mkEvento (mkBookingRow t c)) ∧
         (∀ t ∈ db.tasks, ∀ c ∈ db.calendar,
            c.cacodcal = t.tecodcal → t.testato = "C" → t.tecodcal ∈ codes →
            t.teprevbegin ≤ toEpochSec d2 → toEpochSec d1 ≤ t.teprevend →
            ∃ g ∈ rep.risorse, mkEvento (mkBookingRow t c) ∈ g.eventi)) ∧
    (codes.length ≠ 3 →
       get_active_bookings db codes st et = .error .paramArity) := by
  constructor
  · intro h3
    have hga : get_active_bookings db codes st et = .ok
        ⟨st, et, round1 (((toEpochSec d2 - toEpochSec d1 : ℤ) : ℚ) / 3600),
          (buildGroups (selectedRows db codes (toEpochSec d1) (toEpochSec d2))).length,
          (selectedRows db codes (toEpochSec d1) (toEpochSec d2)).length,
          round1 (totalHours (selectedRows db codes (toEpochSec d1) (toEpochSec d2))),
          (buildGroups (selectedRows db codes (toEpochSec d1) (toEpochSec d2))).map
            finishGroup⟩ := by
      simp only [get_active_bookings, hp1, hp2, if_pos h3]
    refine ⟨_, hga, rfl, ?_, ?_⟩
    · intro g hg ev hev
      obtain ⟨g', hg', rfl⟩ := List.mem_map.mp hg
      have hnd := nodup_buildGroups (selectedRows db codes (toEpochSec d1) (toEpochSec d2))
      have hfind := findGroup_of_mem hnd hg'
      have hEv : g'.eventi =
          ((selectedRows db codes (toEpochSec d1) (toEpochSec d2)).filter
            (fun r => r.cod_calendario == g'.cod)).map mkEvento := by
        have h := groupEv_buildGroups
          (selectedRows db codes (toEpochSec d1) (toEpochSec d2)) g'.cod
        rw [groupEv, hfind] at h
        simpa using h
      have hev' : ev ∈ g'.eventi := hev
      rw [hEv] at hev'
      obtain ⟨r, hr, rfl⟩ := List.mem_map.mp hev'
      have hrsel : r ∈ selectedRows db codes (toEpochSec d1) (toEpochSec d2) :=
        (List.mem_filter.mp hr).1
      obtain ⟨t, ht, c, hc, hcc, h1, h2, hC, hin, hrow⟩ := mem_selectedRows.mp hrsel
      exact ⟨t, ht, c, hc, hcc, hC, hin, h1, h2, by rw [hrow]⟩
    · intro t ht c hc hcc hC hin hle hge
      have hrow : mkBookingRow t c ∈
          selectedRows db codes (toEpochSec d1) (toEpochSec d2) :=
        mem_selectedRows.mpr ⟨t, ht, c, hc, hcc, hle, hge, hC, hin, rfl⟩
      have hev : mkEvento (mkBookingRow t c) ∈
          groupEv (buildGroups (selectedRows db codes (toEpochSec d1) (toEpochSec d2)))
            (mkBookingRow t c).cod_calendario := by
        rw [groupEv_buildGroups]
        exact List.mem_map_of_mem _ (List.mem_filter.mpr ⟨hrow, by simp⟩)
      cases hf : findGroup
          (buildGroups (selectedRows db codes (toEpochSec d1) (toEpochSec d2)))
          (mkBookingRow t c).cod_calendario with
      | none => rw [groupEv, hf] at hev; simp at hev
      | some g' =>
        have hg'mem := List.mem_of_find?_eq_some hf
        refine ⟨finishGroup g', List.mem_map_of_mem _ hg'mem, ?_⟩
        rw [groupEv, hf] at hev
        simpa [finishGroup] using hev
  · intro hne
    simp only [get_active_bookings, hp1, hp2, if_neg hne]

/-- C3 (witness): on a concrete database with a three-code allow-list the
report exists and satisfies the containment characterisation. -/
theorem C3_allowlist_filter_witness :
    ∃ rep, get_active_bookings dbMid codes3 "2024-06-01 10:00" "2024-06-01 11:00" = .ok rep ∧
      rep.risorse =
        (buildGroups (selectedRows dbMid codes3
          (toEpochSec ⟨2024, 6, 1, 10, 0⟩) (toEpochSec ⟨2024, 6, 1, 11, 0⟩))).map
          finishGroup ∧
      (∀ g ∈ rep.risorse, ∀ ev ∈ g.eventi,
         ∃ t ∈ dbMid.tasks, ∃ c ∈ dbMid.calendar,
           c.cacodcal = t.tecodcal ∧ t.testato = "C" ∧ t.tecodcal ∈ codes3 ∧
           t.teprevbegin ≤ toEpochSec ⟨2024, 6, 1, 11, 0⟩ ∧
           toEpochSec ⟨2024, 6, 1, 10, 0⟩ ≤ t.teprevend ∧
           ev = mkEvento (mkBookingRow t c)) ∧
      (∀ t ∈ dbMid.tasks, ∀ c ∈ dbMid.calendar,
         c.cacodcal = t.tecodcal → t.testato = "C" → t.tecodcal ∈ codes3 →
         t.teprevbegin ≤ toEpochSec ⟨2024, 6, 1, 11, 0⟩ →
         toEpochSec ⟨2024, 6, 1, 10, 0⟩ ≤ t.teprevend →
         ∃ g ∈ rep.risorse, mkEvento (mkBookingRow t c) ∈ g.eventi) :=
  (C3_allowlist_filter dbMid codes3 "2024-06-01 10:00" "2024-06-01 11:00"
    ⟨2024, 6, 1, 10, 0⟩ ⟨2024, 6, 1, 11, 0⟩ rfl rfl).1 rfl

/-- C4 (counterexample): the description search passes the token into a SQL
`LIKE` pattern, so a token made of the wildcard `_` matches a resource whose
description does not contain it as a substring — the claim's
substring characterisation fails for wildcard tokens. -/
theorem C4_counterexample :
    (resolve_resource_info dbUnderscore "_").resourcesOf = [resPlain] ∧
    ¬(lowerChars "_".data <:+: lowerChars "Aula".data) := by
  exact ⟨rfl, by decide⟩

/-- C4 (amended): for every token free of the `LIKE` wildcard/escape
characters (`%`, `_`, `\`) and with no exact id match, the resolver returns
exactly the active resources whose description contains the token
case-insensitively, ordered by resource id ascending, with the result's
calendar code taken from the first match and the kind `single`/`multiple`
according to the number of matches. -/
theorem C4_description_search (db : DB) (token : String)
    (hex : db.resources.find? (exactPred token) = none)
    (hwc : ∀ c ∈ lowerChars token.data, c ≠ '%' ∧ c ≠ '_' ∧ c ≠ '\\') :
    (∀ r, r ∈ (resolve_resource_info db token).resourcesOf ↔
       (r ∈ db.resources ∧ r.flactive = 1 ∧
        lowerChars token.data <:+: lowerChars r.redescri.data)) ∧
    List.Sorted relId (resolve_resource_info db token).resourcesOf ∧
    (∀ hd tl, (resolve_resource_info db token).resourcesOf = hd :: tl →
       resolve_resource_info db token = .descRes hd tl ∧
       (resolve_resource_info db token).calCode = some hd.recodcal ∧
       (resolve_resource_info db token).kindStr =
         (if tl.isEmpty then "single" else "multiple")) ∧
    ((resolve_resource_info db token).resourcesOf = [] →
       resolve_resource_info db token = .notFound) := by
  have hdesc : ∀ r : Resource, (descPred token r = true ↔
      (r.flactive = 1 ∧ lowerChars token.data <:+: lowerChars r.redescri.data)) := by
    intro r
    rw [descPred, Bool.and_eq_true, likePattern_eq,
      likeMatch_contains_iff _ hwc, beq_iff_eq]
    tauto
  cases hsort : List.insertionSort relId (db.resources.filter (descPred token)) with
  | nil =>
    have hres : resolve_resource_info db token = .notFound := by
      rw [resolve_resource_info, hex, hsort]
    refine ⟨?_, ?_, ?_, fun _ => hres⟩
    · intro r
      rw [hres]
      simp only [ResolutionResult.resourcesOf, List.not_mem_nil, false_iff]
      rintro ⟨hmem, hact, hinf⟩
      have hr : r ∈ List.insertionSort relId (db.resources.filter (descPred token)) := by
        rw [List.mem_insertionSort, List.mem_filter]
        exact ⟨hmem, (hdesc r).mpr ⟨hact, hinf⟩⟩
      rw [hsort] at hr
      exact absurd hr (List.not_mem_nil r)
    · rw [hres]
      exact List.sorted_nil
    · intro hd tl h
      rw [hres] at h
      exact absurd h (by simp [ResolutionResult.resourcesOf])
  | cons m rest =>
    have hres : resolve_resource_info db token = .descRes m rest := by
      rw [resolve_resource_info, hex, hsort]
    have hof : (resolve_resource_info db token).resourcesOf = m :: rest := by
      rw [hres]
      rfl
    refine ⟨?_, ?_, ?_, ?_⟩
    · intro r
      rw [hof, ← hsort, List.mem_insertionSort, List.mem_filter]
      constructor
      · rintro ⟨hmem, hp⟩
        exact ⟨hmem, (hdesc r).mp hp⟩
      · rintro ⟨hmem, hact, hinf⟩
        exact ⟨hmem, (hdesc r).mpr ⟨hact, hinf⟩⟩
    · rw [hof, ← hsort]
      exact @List.sorted_insertionSort _ relId _
        ⟨fun a b => charListLe_total _ _⟩ ⟨fun _ _ _ => charListLe_trans _ _ _⟩ _
    · intro hd tl h
      rw [hof] at h
      injection h with h1 h2
      subst h1; subst h2
      exact ⟨hres, by rw [hres]; rfl, by rw [hres]; rfl⟩
    · intro h
      rw [hof] at h
      exact absurd h (by simp)

/-- C4 (witness): on a concrete database the wildcard-free token "corsi"
resolves to description matches containing AULA02, sorted by id. -/
theorem C4_description_search_witness :
    resAulaCorsi ∈ (resolve_resource_info dbMulti "corsi").resourcesOf ∧
    List.Sorted relId (resolve_resource_info dbMulti "corsi").resourcesOf := by
  have h := C4_description_search dbMulti "corsi" rfl (by decide)
  exact ⟨(h.1 resAulaCorsi).mpr ⟨by simp [dbMulti], rfl, by decide⟩, h.2.1⟩

/-- C5: back-to-back intervals never conflict: a reservation whose end
equals the query window's start, or whose start equals the window's end,
contributes nothing to the strict-overlap conflict count used by the
availability check, nor to the busy-resource test of the free-resource
search. -/
theorem C5_back_to_back_no_conflict (rows : List ResourceListRow)
    (row : ResourceListRow) (rid : String) (sd ed : Int)
    (h : row.rlprevend = sd ∨ row.rlprevbegin = ed) :
    countConflicts (row :: rows) rid sd ed = countConflicts rows rid sd ed ∧
    busyKey (row :: rows) sd ed rid = busyKey rows sd ed rid := by
  have hfalse : (row.rlresourceid == rid && decide (row.rlprevbegin < ed) &&
      decide (sd < row.rlprevend)) = false := by
    rcases h with h | h
    · simp [h]
    · simp [h]
  constructor
  · simp [countConflicts, List.filter_cons, hfalse]
  · simp [busyKey, List.any_cons, hfalse]

/-- C5 (witness): the reservation ending at 11:00 adds nothing to the
conflict count for the 11:00-12:00 window. -/
theorem C5_back_to_back_witness :
    countConflicts [rsvBack] "AULA01"
        (toEpochSec ⟨2024, 6, 1, 11, 0⟩) (toEpochSec ⟨2024, 6, 1, 12, 0⟩) =
      countConflicts [] "AULA01"
        (toEpochSec ⟨2024, 6, 1, 11, 0⟩) (toEpochSec ⟨2024, 6, 1, 12, 0⟩) ∧
    busyKey [rsvBack] (toEpochSec ⟨2024, 6, 1, 11, 0⟩) (toEpochSec ⟨2024, 6, 1, 12, 0⟩)
        "AULA01" =
      busyKey [] (toEpochSec ⟨2024, 6, 1, 11, 0⟩) (toEpochSec ⟨2024, 6, 1, 12, 0⟩)
        "AULA01" :=
  C5_back_to_back_no_conflict [] rsvBack "AULA01" _ _ (Or.inl rfl)

/-- C6: if some active resource's id equals the token case-insensitively,
the resolver returns kind `exact` carrying exactly one such resource (with
its calendar code), never falling through to the description search. -/
theorem C6_exact_precedence (db : DB) (token : String)
    (h : ∃ r ∈ db.resources, r.flactive = 1 ∧
      upperChars r.reresourceid.data = upperChars token.data) :
    ∃ r0, resolve_resource_info db token = .exactRes r0 ∧
      r0 ∈ db.resources ∧ r0.flactive = 1 ∧
      upperChars r0.reresourceid.data = upperChars token.data ∧
      (resolve_resource_info db token).kindStr = "exact" ∧
      (resolve_resource_info db token).resourcesOf = [r0] ∧
      (resolve_resource_info db token).calCode = some r0.recodcal := by
  obtain ⟨r, hr, hact, hup⟩ := h
  have hsome : (db.resources.find? (exactPred token)).isSome := by
    rw [List.find?_isSome]
    exact ⟨r, hr, by simp [exactPred, hup, hact]⟩
  obtain ⟨r0, hr0⟩ := Option.isSome_iff_exists.mp hsome
  have hp := List.find?_some hr0
  have hmem := List.mem_of_find?_eq_some hr0
  have hres : resolve_resource_info db token = .exactRes r0 := by
    rw [resolve_resource_info, hr0]
  rw [exactPred, Bool.and_eq_true, beq_iff_eq, beq_iff_eq] at hp
  exact ⟨r0, hres, hmem, hp.2, hp.1, by rw [hres]; rfl, by rw [hres]; rfl,
    by rw [hres]; rfl⟩

/-- C6 (witness): with a decoy whose description contains "aula01" listed
before the resource whose id is AULA01, resolving "AULA01" still returns the
exact kind with the id-matched resource. -/
theorem C6_exact_precedence_witness :
    ∃ r0, resolve_resource_info dbPrecedence "AULA01" = .exactRes r0 ∧
      r0 ∈ dbPrecedence.resources ∧ r0.flactive = 1 ∧
      upperChars r0.reresourceid.data = upperChars "AULA01".data ∧
      (resolve_resource_info dbPrecedence "AULA01").kindStr = "exact" ∧
      (resolve_resource_info dbPrecedence "AULA01").resourcesOf = [r0] ∧
      (resolve_resource_info dbPrecedence "AULA01").calCode = some r0.recodcal :=
  C6_exact_precedence dbPrecedence "AULA01"
    ⟨resIdMatch, by simp [dbPrecedence], rfl, rfl⟩

/-- C7: for a `multiple` resolution with N resources the availability check
partitions them completely: free and busy id lists are disjoint, their
lengths sum to N, the reported totals equal the list lengths, and the
at-least-one-free flag is true iff the free list is non-empty. -/
theorem C7_partition_complete (db : DB) (token st et : String)
    (d1 d2 : DateTimeVal)
    (hp1 : parseDT st = some d1) (hp2 : parseDT et = some d2)
    (f r0 : Resource) (rest : List Resource)
    (hres : resolve_resource_info db token = .descRes f (r0 :: rest)) :
    ∃ m : MultiResult,
      check_resource_availability db token st et = (.ok (.multiResp token m), 1) ∧
      m.risorse_trovate = (resolve_resource_info db token).resourcesOf.length ∧
      m.risorse_libere.length + m.risorse_occupate.length = m.risorse_trovate ∧
      m.totale_libere = m.risorse_libere.length ∧
      m.totale_occupate = m.risorse_occupate.length ∧
      (∀ x, x ∈ m.risorse_libere → x ∉ m.risorse_occupate) ∧
      (m.almeno_una_libera = true ↔ m.risorse_libere ≠ []) := by
  simp only [check_resource_availability, hp1, hp2, hres]
  refine ⟨_, rfl, ?_, ?_, rfl, rfl, ?_, ?_⟩
  · simp [ResolutionResult.resourcesOf]
  · have hpart := length_filter_partition
      (fun rid => busyKey db.resourcelist (toEpochSec d1) (toEpochSec d2) rid)
      ((f :: r0 :: rest).map (fun r => r.reresourceid))
    simp only [List.map_cons, List.length_cons, List.length_map] at hpart ⊢
    omega
  · intro x hx hy
    rw [List.mem_filter] at hx hy
    rw [hy.2] at hx
    simp at hx
  · simp only [decide_eq_true_eq]
    exact List.length_pos

/-- C7 (witness): on a concrete database the token "corsi" resolves to two
resources, one busy and one free, and the partition properties hold. -/
theorem C7_partition_complete_witness :
    ∃ m : MultiResult,
      check_resource_availability dbMulti "corsi" "2024-06-01 09:30" "2024-06-01 10:30" =
        (.ok (.multiResp "corsi" m), 1) ∧
      m.risorse_trovate = (resolve_resource_info dbMulti "corsi").resourcesOf.length ∧
      m.risorse_libere.length + m.risorse_occupate.length = m.risorse_trovate ∧
      m.totale_libere = m.risorse_libere.length ∧
      m.totale_occupate = m.risorse_occupate.length ∧
      (∀ x, x ∈ m.risorse_libere → x ∉ m.risorse_occupate) ∧
      (m.almeno_una_libera = true ↔ m.risorse_libere ≠ []) :=
  C7_partition_complete dbMulti "corsi" "2024-06-01 09:30" "2024-06-01 10:30"
    ⟨2024, 6, 1, 9, 30⟩ ⟨2024, 6, 1, 10, 30⟩ rfl rfl
    resAulaCorsi resAulaCorsiG [] (by decide)

/-- C8: when the token resolves to `not_found`, the availability check
returns an error result naming the token and issues no conflict query. -/
theorem C8_not_found_no_query (db : DB) (token st et : String)
    (d1 d2 : DateTimeVal)
    (hp1 : parseDT st = some d1) (hp2 : parseDT et = some d2)
    (hres : resolve_resource_info db token = .notFound) :
    check_resource_availability db token st et = (.error (.notFoundRes token), 0) := by
  simp only [check_resource_availability, hp1, hp2, hres]

/-- C8 (witness): the unknown token NOPE yields the not-found error report
with zero conflict queries issued. -/
theorem C8_not_found_no_query_witness :
    check_resource_availability dbEmpty "NOPE" "2024-06-01 09:00" "2024-06-01 10:00" =
      (.error (.notFoundRes "NOPE"), 0) :=
  C8_not_found_no_query dbEmpty "NOPE" "2024-06-01 09:00" "2024-06-01 10:00"
    ⟨2024, 6, 1, 9, 0⟩ ⟨2024, 6, 1, 10, 0⟩ rfl rfl rfl

/-- C9: every modelled public operation is total, returning either a report
or an error report; in particular a date-time string the strptime model
rejects yields the ValueError-derived parse-error report naming the
offending string, not a crash. -/
theorem C9_total_error_reports :
    (∀ (db : DB) (codes : List String) (st et : String),
       parseDT st = none →
       get_active_bookings db codes st et = .error (.parseError st)) ∧
    (∀ (db : DB) (codes : List String) (st et : String) (d : DateTimeVal),
       parseDT st = some d → parseDT et = none →
       get_active_bookings db codes st et = .error (.parseError et)) ∧
    (∀ (db : DB) (token st et : String),
       parseDT st = none →
       (check_resource_availability db token st et).1 = .error (.parseError st)) ∧
    (∀ (db : DB) (token st et : String) (d : DateTimeVal),
       parseDT st = some d → parseDT et = none →
       (check_resource_availability db token st et).1 = .error (.parseError et)) ∧
    (∀ (db : DB) (a b c st et : String),
       parseDT st = none →
       find_free_resources db a b c st et = .error (.parseError st)) ∧
    (∀ (db : DB) (a b c st et : String) (d : DateTimeVal),
       parseDT st = some d → parseDT et = none →
       find_free_resources db a b c st et = .error (.parseError et)) ∧
    (∀ (db : DB) (codes : List String) (st et : String),
       (∃ rep, get_active_bookings db codes st et = .ok rep) ∨
       (∃ e, get_active_bookings db codes st et = .error e)) ∧
    (∀ (db : DB) (token st et : String),
       (∃ rep, (check_resource_availability db token st et).1 = .ok rep) ∨
       (∃ e, (check_resource_availability db token st et).1 = .error e)) ∧
    (∀ (db : DB) (a b c st et : String),
       (∃ rep, find_free_resources db a b c st et = .ok rep) ∨
       (∃ e, find_free_resources db a b c st et = .error e)) ∧
    (∀ db : DB, ∃ rep, list_available_resources db = .ok rep) := by
  refine ⟨?_, ?_, ?_, ?_, ?_, ?_, ?_, ?_, ?_, ?_⟩
  · intro db codes st et h
    simp only [get_active_bookings, h]
  · intro db codes st et d h1 h2
    simp only [get_active_bookings, h1, h2]
  · intro db token st et h
    simp only [check_resource_availability, h]
  · intro db token st et d h1 h2
    simp only [check_resource_availability, h1, h2]
  · intro db a b c st et h
    simp only [find_free_resources, h]
  · intro db a b c st et d h1 h2
    simp only [find_free_resources, h1, h2]
  · intro db codes st et
    cases h : get_active_bookings db codes st et with
    | ok rep => exact Or.inl ⟨rep, rfl⟩
    | error e => exact Or.inr ⟨e, rfl⟩
  · intro db token st et
    cases h : (check_resource_availability db token st et).1 with
    | ok rep => exact Or.inl ⟨rep, rfl⟩
    | error e => exact Or.inr ⟨e, rfl⟩
  · intro db a b c st et
    cases h : find_free_resources db a b c st et with
    | ok rep => exact Or.inl ⟨rep, rfl⟩
    | error e => exact Or.inr ⟨e, rfl⟩
  · intro db
    exact ⟨_, rfl⟩

/-- C9 (witness): an unparsable date-time string produces the parse-error
report on a concrete call. -/
theorem C9_total_error_reports_witness :
    get_active_bookings dbEmpty [] "nonsense" "2024-06-01 10:00" =
      .error (.parseError "nonsense") :=
  C9_total_error_reports.1 dbEmpty [] "nonsense" "2024-06-01 10:00" rfl

/-- C10: per-event durations are `(end - start)` seconds divided by 3600
rounded to one decimal; each per-calendar total is the sum of the unrounded
durations of its rows, rounded once at the end; the unrounded group totals
sum exactly to the `total_hours` accumulator; and the rounded group totals
sum to the rounded global total within 0.1 per group.  The final conjunct
ties the report of `get_active_bookings` to these quantities. -/
theorem C10_rounding_aggregation (rows : List BookingRow) :
    (∀ (t : TaskRow) (c : CalendarRow),
       (mkEvento (mkBookingRow t c)).durata_ore =
         round1 (((t.teprevend - t.teprevbegin : ℤ) : ℚ) / 3600)) ∧
    (∀ g ∈ buildGroups rows,
       (finishGroup g).ore_totali =
         round1 (((rows.filter (fun r => r.cod_calendario == g.cod)).map
           (fun r => r.durata_ore)).sum)) ∧
    ((buildGroups rows).map (fun g => g.oreRaw)).sum = totalHours rows ∧
    |(((buildGroups rows).map (fun g => (finishGroup g).ore_totali)).sum) -
        round1 (totalHours rows)| ≤ ((buildGroups rows).length : ℚ) / 10 ∧
    (∀ (db : DB) (codes : List String) (st et : String) (d1 d2 : DateTimeVal),
       parseDT st = some d1 → parseDT et = some d2 → codes.length = 3 →
       ∃ rep, get_active_bookings db codes st et = .ok rep ∧
         rep.ore_totali =
           round1 (totalHours (selectedRows db codes (toEpochSec d1) (toEpochSec d2))) ∧
         rep.risorse =
           (buildGroups (selectedRows db codes (toEpochSec d1) (toEpochSec d2))).map
             finishGroup) := by
  refine ⟨fun t c => rfl, ?_, sumRaw_buildGroups rows, ?_, ?_⟩
  · intro g hg
    have hnd := nodup_buildGroups rows
    have hfind := findGroup_of_mem hnd hg
    have hraw := groupRaw_buildGroups rows g.cod
    rw [groupRaw, hfind] at hraw
    have hraw' : g.oreRaw =
        ((rows.filter (fun r => r.cod_calendario == g.cod)).map
          (fun r => r.durata_ore)).sum := hraw
    rw [show (finishGroup g).ore_totali = round1 g.oreRaw from rfl, hraw']
  · have hmap : (buildGroups rows).map (fun g => (finishGroup g).ore_totali) =
        ((buildGroups rows).map (fun g => g.oreRaw)).map round1 := by
      rw [List.map_map]; rfl
    rw [hmap]
    have hsum := sumRaw_buildGroups rows
    by_cases hgs : buildGroups rows = []
    · have h0 : totalHours rows = 0 := by
        rw [← sumRaw_buildGroups rows, hgs]; simp
      simp [hgs, h0, round1_zero]
    · have h1 := abs_sum_round1 ((buildGroups rows).map (fun g => g.oreRaw))
      rw [hsum] at h1
      have h2 := abs_round1_sub (totalHours rows)
      rw [abs_sub_comm] at h2
      have htri := abs_sub_le
        (((buildGroups rows).map (fun g => g.oreRaw)).map round1).sum
        (totalHours rows)
        (round1 (totalHours rows))
      have hlen : (1 : ℚ) ≤ ((buildGroups rows).length : ℚ) := by
        have hpos : 0 < (buildGroups rows).length := List.length_pos.mpr hgs
        exact_mod_cast hpos
      have hlen2 : (((buildGroups rows).map (fun g => g.oreRaw)).length : ℚ) =
          ((buildGroups rows).length : ℚ) := by
        rw [List.length_map]
      rw [hlen2] at h1
      linarith
  · intro db codes st et d1 d2 hp1 hp2 h3
    have hga : get_active_bookings db codes st et = .ok
        ⟨st, et, round1 (((toEpochSec d2 - toEpochSec d1 : ℤ) : ℚ) / 3600),
          (buildGroups (selectedRows db codes (toEpochSec d1) (toEpochSec d2))).length,
          (selectedRows db codes (toEpochSec d1) (toEpochSec d2)).length,
          round1 (totalHours (selectedRows db codes (toEpochSec d1) (toEpochSec d2))),
          (buildGroups (selectedRows db codes (toEpochSec d1) (toEpochSec d2))).map
            finishGroup⟩ := by
      simp only [get_active_bookings, hp1, hp2, if_pos h3]
    exact ⟨_, hga, rfl, rfl⟩

/-- C10 (witness): on two concrete rows the unrounded group totals sum to
the global accumulator. -/
theorem C10_rounding_aggregation_witness :
    ((buildGroups [rowA, rowB]).map (fun g => g.oreRaw)).sum =
      totalHours [rowA, rowB] :=
  (C10_rounding_aggregation [rowA, rowB]).2.2.1

end Booking
